import Mathlib

/-!
# Verification of the mpv IPC client multiplexer

A shallow embedding of the Go package `mpv` (files `part_000` and
`client.go`): a concurrent request/response multiplexer speaking
newline-delimited JSON over a local socket.  Pure functions of the source
become Lean functions; the writer and reader goroutines become folds over
explicit event streams; the two `select` statements of `Exec` become
functions of an outcome oracle constrained by channel/timer readiness.
-/

/-- A JSON value, the shallow embedding of what `encoding/json` produces and
consumes.  Numbers are rationals (wire-format numbers, abstracting numeric
precision); objects are ordered field lists as `json.Marshal` emits them. -/
inductive Json where
  | null : Json
  | bool (b : Bool) : Json
  | num (q : ℚ) : Json
  | str (s : String) : Json
  | arr (xs : List Json) : Json
  | obj (fields : List (String × Json)) : Json
  deriving Repr

/-- A Go `interface{}` value as passed to `Exec(command ...interface{})`.
Strings, numbers and booleans marshal to JSON; `unsupported` stands for any
value kind `json.Marshal` rejects (channels, functions, NaN floats, ...). -/
inductive GoVal where
  | str (s : String) : GoVal
  | num (q : ℚ) : GoVal
  | bool (b : Bool) : GoVal
  | unsupported (tag : Nat) : GoVal
  deriving Repr, DecidableEq

/-- `Response` received from mpv (source struct `Response`):
`Err` from JSON key `"error"`, `Data` from `"data"` (a `json.RawMessage`,
hence kept as the raw JSON value, `none` when the key is absent),
`Event` from `"event"`, `RequestID` from `"request_id"`. -/
structure Response where
  Err : String
  Data : Option Json
  Event : String
  RequestID : Int
  deriving Repr

/-- `request` sent to mpv (source struct `request`).  The `Response` channel
field is tagged `json:"-"` (never marshalled); here the channel is
identified by the `slot` number its waiting caller listens on. -/
structure Request where
  Command : List GoVal
  RequestID : Int
  slot : Nat
  deriving Repr

/-- `rand.Intn(n)`: a uniform draw in `[0, n)` from the global PRNG, modelled
as a function of the oracle-provided raw draw. -/
def randIntn (draw : Nat) (n : Nat) : Nat := draw % n

/-- `newRequest(cmd ...interface{})` (source lines 32–38): the correlation id
is `rand.Intn(10000)` — a blind random draw, with no look at the ids of
currently-pending requests.  `draw` is the PRNG draw, `slot` the fresh
one-capacity reply channel. -/
def newRequest (draw : Nat) (slot : Nat) (cmd : List GoVal) : Request :=
  { Command := cmd, RequestID := Int.ofNat (randIntn draw 10000), slot := slot }

/-! ## The wire codec -/

/-- `json.Marshal` on one command argument. -/
def marshalGoVal : GoVal → Option Json
  | GoVal.str s => some (Json.str s)
  | GoVal.num q => some (Json.num q)
  | GoVal.bool b => some (Json.bool b)
  | GoVal.unsupported _ => none

/-- `json.Marshal` on `[]interface{}`: every element must marshal. -/
def marshalList : List GoVal → Option (List Json)
  | [] => some []
  | v :: vs =>
    match marshalGoVal v, marshalList vs with
    | some j, some js => some (j :: js)
    | _, _ => none

/-- `json.Marshal(req)` for the `request` struct (used by `writeloop`,
source line 139): emits `{"command": [...], "request_id": n}`; the
`Response` channel is excluded by its `json:"-"` tag.  Fails iff some
command argument is not representable. -/
def marshalRequest (r : Request) : Option Json :=
  match marshalList r.Command with
  | some js => some (Json.obj [("command", Json.arr js), ("request_id", Json.num (r.RequestID : ℚ))])
  | none => none

/-- ASCII case folding of one character, as `strings.EqualFold` performs it
on the ASCII struct keys involved here. -/
def foldChar (c : Char) : Char :=
  if c.toNat ≥ 65 ∧ c.toNat ≤ 90 then Char.ofNat (c.toNat + 32) else c

/-- `encoding/json`'s matching of an incoming object key against a struct
field's tag: an exact match or a case-insensitive one. -/
def keyMatch (k tag : String) : Bool :=
  k.data.map foldChar == tag.data.map foldChar

/-- The zero value of `var resp Response` before `json.Unmarshal` fills it:
empty strings, nil `json.RawMessage`, request id 0. -/
def zeroResponse : Response :=
  { Err := "", Data := none, Event := "", RequestID := 0 }

/-- One incoming object key applied to the `Response` being decoded, as
`json.Unmarshal` processes it: the key is matched case-insensitively
against the tags `"error"`, `"data"`, `"event"`, `"request_id"`; unknown
keys are ignored; a JSON `null` leaves a string or int field at its current
value and produces no error; the `json.RawMessage` field `Data` captures
its value raw, `null` included; a value of the wrong type for a string or
int field is a decode error (`readloop` discards the line on any non-nil
error, so the partially-filled struct Go also produces is never used). -/
def applyResponseField (r : Response) (kv : String × Json) : Option Response :=
  if keyMatch kv.1 "error" then
    match kv.2 with
    | Json.null => some r
    | Json.str s => some { r with Err := s }
    | _ => none
  else if keyMatch kv.1 "data" then
    some { r with Data := some kv.2 }
  else if keyMatch kv.1 "event" then
    match kv.2 with
    | Json.null => some r
    | Json.str s => some { r with Event := s }
    | _ => none
  else if keyMatch kv.1 "request_id" then
    match kv.2 with
    | Json.null => some r
    | Json.num q => if q.den = 1 then some { r with RequestID := q.num } else none
    | _ => none
  else
    some r

/-- The object keys processed left to right (later keys overwrite earlier
ones aimed at the same field, as in Go). -/
def applyResponseFields (r : Response) : List (String × Json) → Option Response
  | [] => some r
  | kv :: rest =>
    match applyResponseField r kv with
    | some r2 => applyResponseFields r2 rest
    | none => none

/-- `json.Unmarshal(data, &resp)` for the `Response` struct (source line
171): a JSON object fills the fields key by key starting from the zero
value; a top-level JSON `null` is accepted as a no-op with a nil error,
yielding the zero `Response`; any other top-level value is an
`UnmarshalTypeError`. -/
def decodeResponse : Json → Option Response
  | Json.null => some zeroResponse
  | Json.obj fields => applyResponseFields zeroResponse fields
  | _ => none

/-- Exact-key, last-occurrence-wins lookup in a JSON object, used by the
spec-modelled request-side decoder below. -/
def getField (fields : List (String × Json)) (k : String) : Option Json :=
  match fields with
  | [] => none
  | (k2, v) :: rest =>
    match getField rest k with
    | some w => some w
    | none => if k2 = k then some v else none

/-- Modelled from the spec: the request-side decoder of the Wire Codec
(§4.1, §8 round-trip law).  The source never decodes its own requests, so
this inverse is taken from the spec's wire format
`{"command": [...], "request_id": <int>}`: recover one command argument from
its JSON form. -/
def decodeGoVal : Json → Option GoVal
  | Json.str s => some (GoVal.str s)
  | Json.num q => some (GoVal.num q)
  | Json.bool b => some (GoVal.bool b)
  | _ => none

/-- Modelled from the spec: decode a list of command arguments. -/
def decodeGoValList : List Json → Option (List GoVal)
  | [] => some []
  | j :: js =>
    match decodeGoVal j, decodeGoValList js with
    | some v, some vs => some (v :: vs)
    | _, _ => none

/-- Modelled from the spec: `decode` of an encoded request line, recovering
the command arguments and the correlation id (§8: "decode(encode(request))
recovers the original command and correlation id"). -/
def decodeRequestLine (j : Json) : Option (List GoVal × Int) :=
  match j with
  | Json.obj fields =>
    match getField fields "command", getField fields "request_id" with
    | some (Json.arr js), some (Json.num q) =>
      match decodeGoValList js, if q.den = 1 then some q.num else none with
      | some vs, some rid => some (vs, rid)
      | _, _ => none
    | _, _ => none
  | _ => none

/-! ## The Correlation Table

`reqMap map[int]*request`, guarded by `c.mu`.  A Go map keyed by the
correlation id; the value retained here is the pending request's reply
slot.  Association list with Go-map semantics: assignment overwrites,
`delete` removes, lookup finds the unique binding. -/

/-- The correlation table: correlation id → reply slot of the pending
request. -/
abbrev ReqMap := List (Int × Nat)

/-- `reqMap[id]` lookup (comma-ok form). -/
def lookupId : ReqMap → Int → Option Nat
  | [], _ => none
  | (k, v) :: rest, id => if k = id then some v else lookupId rest id

/-- `delete(reqMap, id)`. -/
def eraseId : ReqMap → Int → ReqMap
  | [], _ => []
  | (k, v) :: rest, id =>
    if k = id then eraseId rest id else (k, v) :: eraseId rest id

/-- `reqMap[id] = req`: Go map assignment (silently overwrites). -/
def insertId (m : ReqMap) (k : Int) (v : Nat) : ReqMap := (k, v) :: eraseId m k

/-! ## dispatch (source lines 75–94) -/

/-- `dispatch(cx, resp)`: if the message carries no event name, look up the
correlation id; on a hit, `delete` the entry and send the response into the
request's one-capacity reply channel (recorded as the delivery
`(slot, resp)`); on a miss, discard.  A non-empty event name falls to the
unimplemented event branch (a no-op).  Returns the new correlation table and
the delivery performed, if any. -/
def dispatch (m : ReqMap) (resp : Response) : ReqMap × Option (Nat × Response) :=
  if resp.Event = "" then
    match lookupId m resp.RequestID with
    | some slot => (eraseId m resp.RequestID, some (slot, resp))
    | none => (m, none)
  else
    (m, none)

/-! ## writeloop (source lines 122–155) -/

/-- One observable iteration of `writeloop`: the cancellation context fired
(either `select`), the intake channel `c.comm` was found closed, or a
request arrived on it. -/
inductive WriteEvent where
  | ctxDone : WriteEvent
  | commClosed : WriteEvent
  | arrive (r : Request) : WriteEvent
  deriving Repr

/-- What `writeloop` did with one arrived request (source lines 139–153):
`json.Marshal` it; on error, log and `continue` — the request is dropped on
the floor (no write, no registration, and nothing is ever sent to its
`Response` channel); on success, register it in `reqMap` under `c.mu`, then
write the line.  A write error is ignored (both TODO branches are empty).
Returns (new table, line written, completion sent to the waiting caller). -/
def writeStep (m : ReqMap) (r : Request) :
    ReqMap × Option Json × Option (Nat × Response) :=
  match marshalRequest r with
  | none => (m, none, none)
  | some j => (insertId m r.RequestID r.slot, some j, none)

/-- The `writeloop` run over a stream of iteration events: terminates on
cancellation or a closed intake channel, otherwise performs `writeStep` and
loops.  Returns the final correlation table and the lines written in
order. -/
def writeloop (m : ReqMap) : List WriteEvent → ReqMap × List Json
  | [] => (m, [])
  | WriteEvent.ctxDone :: _ => (m, [])
  | WriteEvent.commClosed :: _ => (m, [])
  | WriteEvent.arrive r :: rest =>
    let s := writeStep m r
    let rec' := writeloop s.1 rest
    (rec'.1, s.2.1.toList ++ rec'.2)

/-! ## readloop (source lines 157–178) -/

/-- One blocking read in `readloop`: `rd.ReadBytes('\n')` returned an error,
or returned a line whose `json.Unmarshal` parse is given (`none` for bytes
that are not valid JSON — the parse of the raw bytes by `encoding/json` is
abstracted into the event). -/
inductive ReadEvent where
  | readErr : ReadEvent
  | line (parsed : Option Json) : ReadEvent

/-- One iteration body of `readloop` after the cancellation check: a read
error hits an empty TODO branch and `continue`s (the loop does NOT
terminate); an unparsable line `continue`s; a parsed line that does not
decode into `Response` `continue`s; a decoded response is dispatched. -/
def readStep (m : ReqMap) : ReadEvent → ReqMap × Option (Nat × Response)
  | ReadEvent.readErr => (m, none)
  | ReadEvent.line none => (m, none)
  | ReadEvent.line (some j) =>
    match decodeResponse j with
    | none => (m, none)
    | some resp => dispatch m resp

/-- The `readloop` run over a stream of iterations.  Each iteration first
polls the cancellation context (the `select` with a `default` branch) —
`true` means `cx.Done()` fired and the loop returns — then performs one
blocking read and `readStep`.  Returns the final correlation table and the
deliveries made, in order. -/
def readloop (m : ReqMap) : List (Bool × ReadEvent) → ReqMap × List (Nat × Response)
  | [] => (m, [])
  | (cancelled, ev) :: rest =>
    if cancelled then (m, [])
    else
      let s := readStep m ev
      let rec' := readloop s.1 rest
      (rec'.1, s.2.toList ++ rec'.2)

/-! ## Exec (source lines 194–220) and Close (lines 114–120)

`Exec` runs two `select`s in sequence.  Each is modelled by an outcome
drawn by the scheduler, constrained by which alternatives are ready:
a Go `select` with at least one immediately-ready alternative completes
at once with one of those, so the fresh 2-second timer cannot win against
an alternative that is ready at entry. -/

/-- Outcome of the send-phase `select`: the cancellation context fired, the
request was handed to `c.comm`, or the send timer fired. -/
inductive SendOutcome where
  | ctxDone : SendOutcome
  | sent : SendOutcome
  | timeout : SendOutcome
  deriving Repr, DecidableEq

/-- Outcome of the receive-phase `select`: the cancellation context fired, a
response was received from `req.Response` (`received`), the channel was
found closed (`ok == false`), or the receive timer fired. -/
inductive RecvOutcome where
  | ctxDone : RecvOutcome
  | received (r : Response) : RecvOutcome
  | closed : RecvOutcome
  | timeout : RecvOutcome
  deriving Repr

/-- The errors `Exec` can return: `c.cx.Err()` after cancellation,
`ErrTimeoutSend`, `ErrTimeoutRecv`, `ChannelErr`. -/
inductive ExecError where
  | ctxErr : ExecError
  | timeoutSend : ExecError
  | timeoutRecv : ExecError
  | channelErr : ExecError
  deriving Repr, DecidableEq

/-- `Exec`'s return value as a function of the two select outcomes, read off
the source line by line: send-phase `cx.Done()` → `(nil, c.cx.Err())`;
timer → `(nil, ErrTimeoutSend)`; after a successful hand-off, receive-phase
`cx.Done()` → `(nil, c.cx.Err())`; closed channel → `(nil, ChannelErr)`;
timer → `(nil, ErrTimeoutRecv)`; a received response is returned as is with
a nil error. -/
def execResult (s : SendOutcome) (r : RecvOutcome) : Option Response × Option ExecError :=
  match s with
  | SendOutcome.ctxDone => (none, some ExecError.ctxErr)
  | SendOutcome.timeout => (none, some ExecError.timeoutSend)
  | SendOutcome.sent =>
    match r with
    | RecvOutcome.ctxDone => (none, some ExecError.ctxErr)
    | RecvOutcome.closed => (none, some ExecError.channelErr)
    | RecvOutcome.timeout => (none, some ExecError.timeoutRecv)
    | RecvOutcome.received resp => (some resp, none)

/-- Readiness constraint on the send-phase `select` (source lines 197–205):
`cx.Done()` is ready iff the client is cancelled (`Close` ran `c.cancel()`);
`c.comm <- req` is ready iff the writer loop is blocked receiving on
`c.comm` (`writerReady`); the just-created timer is not ready at entry, so
it can only win when no other alternative is ready. -/
def sendSelectCan (cancelled writerReady : Bool) : SendOutcome → Prop
  | SendOutcome.ctxDone => cancelled = true
  | SendOutcome.sent => writerReady = true
  | SendOutcome.timeout => cancelled = false ∧ writerReady = false

/-- Readiness constraint on the receive-phase `select` (source lines
206–219): `cx.Done()` is ready iff the client is cancelled; receiving from
`req.Response` is ready iff a reply has been delivered into the one-slot
channel (`hasReply`) or the channel has been closed (`closedChan` — the
source never closes a request's channel, so in every reachable state it is
`false`); the just-created timer is not ready at entry and can only win
when no other alternative is ready. -/
def recvSelectCan (cancelled hasReply closedChan : Bool) : RecvOutcome → Prop
  | RecvOutcome.ctxDone => cancelled = true
  | RecvOutcome.received _ => hasReply = true
  | RecvOutcome.closed => closedChan = true
  | RecvOutcome.timeout => cancelled = false ∧ hasReply = false ∧ closedChan = false

/-! ## Helper lemmas -/

/-- Decoding inverts marshalling on a single command argument. -/
theorem decodeGoVal_marshalGoVal (v : GoVal) (j : Json)
    (h : marshalGoVal v = some j) : decodeGoVal j = some v := by
  cases v <;> first
    | exact Option.noConfusion h
    | (injection h with h; subst h; rfl)

/-- Decoding inverts marshalling on a command-argument list. -/
theorem decodeGoValList_marshalList (vs : List GoVal) (js : List Json)
    (h : marshalList vs = some js) : decodeGoValList js = some vs := by
  induction vs generalizing js with
  | nil =>
    simp only [marshalList, Option.some.injEq] at h
    simp [← h, decodeGoValList]
  | cons v vs ih =>
    simp only [marshalList] at h
    cases hv : marshalGoVal v with
    | none => rw [hv] at h; exact absurd h (by simp)
    | some j =>
      cases hvs : marshalList vs with
      | none => rw [hv, hvs] at h; exact absurd h (by simp)
      | some js2 =>
        rw [hv, hvs] at h
        simp only [Option.some.injEq] at h
        subst h
        simp [decodeGoValList, decodeGoVal_marshalGoVal v j hv, ih js2 hvs]

/-! ## The claims -/

/-- C1: the claim states that `newRequest` assigns a correlation id unique
among all currently-pending requests.  The source draws `rand.Intn(10000)`
without consulting the correlation table: with request id 7 pending, the
PRNG draw 7 produces a second request with the same id 7, and registering
it silently overwrites the pending entry — the cross-delivery hazard the
spec's §9 flags as a required correctness fix. -/
theorem newRequest_blind_draw_collides :
    (newRequest 7 1 [GoVal.str "get_property", GoVal.str "pause"]).RequestID = 7 ∧
    lookupId [((7 : Int), 0)]
      (newRequest 7 1 [GoVal.str "get_property", GoVal.str "pause"]).RequestID = some 0 ∧
    insertId [((7 : Int), 0)] 7 1 = [(7, 1)] :=
  ⟨rfl, rfl, rfl⟩

/-- C2 (counterexample): the claim states that the waiting caller receives
the encoding error.  On the concrete request whose single command argument
cannot be marshalled, `writeloop` hits the marshal-error branch, which only
logs and `continue`s: the completion component of the step is `none` — no
value or error is ever sent to the caller's reply channel. -/
theorem writeStep_encode_failure_no_completion :
    marshalRequest ⟨[GoVal.unsupported 0], 5, 1⟩ = none ∧
    (writeStep [] ⟨[GoVal.unsupported 0], 5, 1⟩).2.2 = none :=
  ⟨rfl, rfl⟩

/-- C2 (amended): for every request whose encoding fails, the Writer Loop
writes nothing, registers nothing, delivers nothing to the waiting caller
(silent discard — the caller is left to its receive-phase timeout), and
continues with the next request. -/
theorem writeloop_encode_failure_discards (m : ReqMap) (r : Request)
    (rest : List WriteEvent) (h : marshalRequest r = none) :
    writeStep m r = (m, none, none) ∧
    writeloop m (WriteEvent.arrive r :: rest) = writeloop m rest := by
  have hs : writeStep m r = (m, none, none) := by
    simp [writeStep, h]
  refine ⟨hs, ?_⟩
  simp [writeloop, hs]

/-- Witness for C2's amended theorem at the concrete failing request. -/
theorem writeloop_encode_failure_discards_witness :
    marshalRequest ⟨[GoVal.unsupported 0], 5, 1⟩ = none ∧
    (writeStep [((3 : Int), 4)] ⟨[GoVal.unsupported 0], 5, 1⟩ = ([((3 : Int), 4)], none, none) ∧
     writeloop [((3 : Int), 4)] [WriteEvent.arrive ⟨[GoVal.unsupported 0], 5, 1⟩]
       = writeloop [((3 : Int), 4)] []) :=
  ⟨rfl, writeloop_encode_failure_discards [((3 : Int), 4)] ⟨[GoVal.unsupported 0], 5, 1⟩ [] rfl⟩

/-- C3: the claim states that a read error terminates the Reader Loop with
no further dispatch.  The source's read-error branch is an empty TODO that
`continue`s: with request id 3 pending, a read error followed by a
well-formed reply line still dispatches that reply — the loop neither
terminated nor stopped dispatching (and on a persistent error such as EOF
it spins forever). -/
theorem readloop_continues_after_read_error :
    readloop [((3 : Int), 9)]
      [(false, ReadEvent.readErr),
       (false, ReadEvent.line (some (Json.obj
         [("error", Json.str "success"), ("request_id", Json.num 3)])))]
      = ([], [(9, ⟨"success", none, "", 3⟩)]) := by
  rfl

/-- C4: an inbound line that fails to decode as a `Response` — raw bytes
that are not valid JSON, or a JSON value `json.Unmarshal` rejects for the
`Response` struct — is discarded silently: the correlation table is
untouched, nothing is delivered, the loop neither terminates nor crashes,
and a subsequent well-formed reply line is still delivered to its matching
pending request.  (A JSON `null`, top-level or field-level, is NOT a decode
failure in Go and falls outside this theorem: `decodeResponse` accepts it.) -/
theorem readloop_malformed_line_harmless (m : ReqMap) (j good : Json)
    (resp : Response) (slot : Nat) (rest : List (Bool × ReadEvent))
    (hbad : decodeResponse j = none)
    (hgood : decodeResponse good = some resp) (hev : resp.Event = "")
    (hslot : lookupId m resp.RequestID = some slot) :
    readStep m (ReadEvent.line (some j)) = (m, none) ∧
    readStep m (ReadEvent.line none) = (m, none) ∧
    readloop m ((false, ReadEvent.line (some j)) :: rest) = readloop m rest ∧
    readloop m ((false, ReadEvent.line none) :: rest) = readloop m rest ∧
    readloop m [(false, ReadEvent.line (some j)), (false, ReadEvent.line (some good))]
      = (eraseId m resp.RequestID, [(slot, resp)]) := by
  have hs : readStep m (ReadEvent.line (some j)) = (m, none) := by
    simp [readStep, hbad]
  have hn : readStep m (ReadEvent.line none) = (m, none) := by
    simp [readStep]
  have hg : readStep m (ReadEvent.line (some good))
      = (eraseId m resp.RequestID, some (slot, resp)) := by
    simp [readStep, hgood, dispatch, hev, hslot]
  refine ⟨hs, hn, ?_, ?_, ?_⟩
  · simp [readloop, hs]
  · simp [readloop, hn]
  · simp [readloop, hs, hg]

/-- Witness for C4 at concrete inputs: `{"error":1}` is a type-mismatched
field `json.Unmarshal` rejects; the following well-formed reply for pending
id 3 is still delivered to slot 9. -/
theorem readloop_malformed_line_harmless_witness :
    decodeResponse (Json.obj [("error", Json.num 1)]) = none ∧
    decodeResponse (Json.obj [("error", Json.str "success"), ("request_id", Json.num 3)])
      = some ⟨"success", none, "", 3⟩ ∧
    (readStep [((3 : Int), 9)] (ReadEvent.line (some (Json.obj [("error", Json.num 1)])))
       = ([((3 : Int), 9)], none) ∧
     readStep [((3 : Int), 9)] (ReadEvent.line none) = ([((3 : Int), 9)], none) ∧
     readloop [((3 : Int), 9)] [(false, ReadEvent.line (some (Json.obj [("error", Json.num 1)])))]
       = readloop [((3 : Int), 9)] [] ∧
     readloop [((3 : Int), 9)] [(false, ReadEvent.line none)]
       = readloop [((3 : Int), 9)] [] ∧
     readloop [((3 : Int), 9)]
       [(false, ReadEvent.line (some (Json.obj [("error", Json.num 1)]))),
        (false, ReadEvent.line (some (Json.obj
          [("error", Json.str "success"), ("request_id", Json.num 3)])))]
       = (eraseId [((3 : Int), 9)] 3, [(9, ⟨"success", none, "", 3⟩)])) :=
  ⟨rfl, rfl,
    readloop_malformed_line_harmless [((3 : Int), 9)] (Json.obj [("error", Json.num 1)])
      (Json.obj [("error", Json.str "success"), ("request_id", Json.num 3)])
      ⟨"success", none, "", 3⟩ 9 [] rfl rfl rfl rfl⟩

/-- C5: a decoded inbound message that carries a non-empty event name, or an
empty event name with a correlation id absent from the table, leaves the
correlation table unchanged, delivers nothing to any reply slot, and the
loop continues with the remaining lines. -/
theorem dispatch_event_or_unknown_id_noop (m : ReqMap) (j : Json)
    (resp : Response) (rest : List (Bool × ReadEvent))
    (hr : decodeResponse j = some resp)
    (h : resp.Event ≠ "" ∨ lookupId m resp.RequestID = none) :
    dispatch m resp = (m, none) ∧
    readloop m ((false, ReadEvent.line (some j)) :: rest) = readloop m rest := by
  have hd : dispatch m resp = (m, none) := by
    rcases h with h | h
    · simp [dispatch, h]
    · simp [dispatch, h]
  have hs : readStep m (ReadEvent.line (some j)) = (m, none) := by
    simp [readStep, hr, hd]
  exact ⟨hd, by simp [readloop, hs]⟩

/-- Witness for C5 at the spec scenario: the unsolicited
`{"event":"pause","request_id":0}` with request id 3 pending leaves the
table unchanged and delivers nothing. -/
theorem dispatch_event_or_unknown_id_noop_witness :
    decodeResponse (Json.obj [("event", Json.str "pause"), ("request_id", Json.num 0)])
      = some ⟨"", none, "pause", 0⟩ ∧
    (Response.Event ⟨"", none, "pause", 0⟩ ≠ "" ∨
      lookupId [((3 : Int), 9)] (Response.RequestID ⟨"", none, "pause", 0⟩) = none) ∧
    (dispatch [((3 : Int), 9)] ⟨"", none, "pause", 0⟩ = ([((3 : Int), 9)], none) ∧
     readloop [((3 : Int), 9)]
       [(false, ReadEvent.line (some (Json.obj
         [("event", Json.str "pause"), ("request_id", Json.num 0)])))]
       = readloop [((3 : Int), 9)] []) :=
  ⟨rfl, Or.inl (by decide),
    dispatch_event_or_unknown_id_noop [((3 : Int), 9)]
      (Json.obj [("event", Json.str "pause"), ("request_id", Json.num 0)])
      ⟨"", none, "pause", 0⟩ [] rfl (Or.inl (by decide))⟩

/-- C6: `Exec` returns the received `Response` with a nil error whenever one
arrives (whatever its `Err` field says), and otherwise returns exactly one
of the cancellation error, `ErrTimeoutSend`, `ErrTimeoutRecv` or
`ChannelErr`; `execResult` is a total function of the select outcomes, so
no outcome panics or fails to return. -/
theorem exec_reply_or_single_error (s : SendOutcome) (r : RecvOutcome) :
    (∀ resp : Response,
      execResult SendOutcome.sent (RecvOutcome.received resp) = (some resp, none)) ∧
    ((∃ resp, s = SendOutcome.sent ∧ r = RecvOutcome.received resp ∧
        execResult s r = (some resp, none)) ∨
     execResult s r = (none, some ExecError.ctxErr) ∨
     execResult s r = (none, some ExecError.timeoutSend) ∨
     execResult s r = (none, some ExecError.timeoutRecv) ∨
     execResult s r = (none, some ExecError.channelErr)) := by
  refine ⟨fun resp => rfl, ?_⟩
  cases s with
  | ctxDone => exact Or.inr (Or.inl rfl)
  | timeout => exact Or.inr (Or.inr (Or.inl rfl))
  | sent =>
    cases r with
    | ctxDone => exact Or.inr (Or.inl rfl)
    | received resp => exact Or.inl ⟨resp, rfl, rfl, rfl⟩
    | closed => exact Or.inr (Or.inr (Or.inr (Or.inr rfl)))
    | timeout => exact Or.inr (Or.inr (Or.inr (Or.inl rfl)))

/-- C7 (counterexample): the claim states the returned Reply's `Err` field
equals the empty string.  The scenario wire line carries
`"error":"success"`, and `json.Unmarshal` puts that string into `Err`: the
Reply `Exec` returns has `Err = "success"`, which is not the empty
string. -/
theorem exec_scenario_err_field_not_empty :
    decodeResponse (Json.obj [("error", Json.str "success"), ("data", Json.bool false),
        ("request_id", Json.num 42)])
      = some ⟨"success", some (Json.bool false), "", 42⟩ ∧
    execResult SendOutcome.sent (RecvOutcome.received ⟨"success", some (Json.bool false), "", 42⟩)
      = (some ⟨"success", some (Json.bool false), "", 42⟩, none) ∧
    Response.Err ⟨"success", some (Json.bool false), "", 42⟩ ≠ "" :=
  ⟨rfl, rfl, by decide⟩

/-- C7 (amended): in the scenario, `execute(["get_property","pause"])` with
correlation id 42 marshals to the expected line, registers id 42, and the
server reply `{"error":"success","data":false,"request_id":42}` is
delivered back: `Exec` returns that Reply with a nil error, its `Err` field
holding the wire error string `"success"` and its `Data` the raw JSON
`false`. -/
theorem exec_scenario_returns_reply :
    marshalRequest (newRequest 42 9 [GoVal.str "get_property", GoVal.str "pause"])
      = some (Json.obj [("command", Json.arr [Json.str "get_property", Json.str "pause"]),
          ("request_id", Json.num ((42 : Int) : ℚ))]) ∧
    writeStep [] (newRequest 42 9 [GoVal.str "get_property", GoVal.str "pause"])
      = ([((42 : Int), 9)],
         some (Json.obj [("command", Json.arr [Json.str "get_property", Json.str "pause"]),
           ("request_id", Json.num ((42 : Int) : ℚ))]), none) ∧
    readloop [((42 : Int), 9)]
      [(false, ReadEvent.line (some (Json.obj [("error", Json.str "success"),
          ("data", Json.bool false), ("request_id", Json.num 42)])))]
      = ([], [(9, ⟨"success", some (Json.bool false), "", 42⟩)]) ∧
    execResult SendOutcome.sent (RecvOutcome.received ⟨"success", some (Json.bool false), "", 42⟩)
      = (some ⟨"success", some (Json.bool false), "", 42⟩, none) ∧
    Response.Err ⟨"success", some (Json.bool false), "", 42⟩ = "success" ∧
    Response.Data ⟨"success", some (Json.bool false), "", 42⟩ = some (Json.bool false) :=
  ⟨rfl, rfl, rfl, rfl, rfl, rfl⟩

/-- C8 (counterexample): the claim states that after `Close` the
cancellation branch is taken in the send phase and no request is handed to
the Writer Loop.  `Close` only runs `c.cancel()` and closes the connection;
it does not wait for the writer goroutine, so a writer still parked on
`<-c.comm` keeps the hand-off alternative ready alongside `cx.Done()`, and
Go's `select` may take it: `sent` is an admissible outcome of the cancelled
send-phase `select` (`sendSelectCan true true`), and the handed-over
request is then marshalled and registered in the correlation table by the
writer's step — the request did reach the Writer Loop. -/
theorem exec_after_close_handoff_possible :
    sendSelectCan true true SendOutcome.sent ∧
    writeStep [] ⟨[GoVal.str "get_property", GoVal.str "pause"], 7, 1⟩
      = ([((7 : Int), 1)],
         some (Json.obj [("command", Json.arr [Json.str "get_property", Json.str "pause"]),
           ("request_id", Json.num ((7 : Int) : ℚ))]), none) :=
  ⟨rfl, rfl⟩

/-- C8 (amended): every `Exec` call started after `Close` has returned fails
fast with the cancellation error — `c.cancel()` has made `cx.Done()` ready
in both `select`s, so neither phase can fall through to its timer.  In the
send phase the outcome is the cancellation branch, or the hand-off if the
Writer Loop is still parked on the intake channel; once the Writer Loop has
observed the cancellation and exited (`writerReady = false`), the
cancellation branch is the only possibility and no request is handed over.
Either way the receive phase (no reply forthcoming: the reader dispatches
nothing once the connection is closed, and the source never closes a
request's channel) returns the cancellation error. -/
theorem exec_after_close_fails_fast (s : SendOutcome) (r : RecvOutcome)
    (writerReady : Bool)
    (hs : sendSelectCan true writerReady s)
    (hr : recvSelectCan true false false r) :
    s ≠ SendOutcome.timeout ∧
    (s = SendOutcome.ctxDone ∨ (s = SendOutcome.sent ∧ writerReady = true)) ∧
    (writerReady = false → s = SendOutcome.ctxDone) ∧
    r = RecvOutcome.ctxDone ∧
    execResult s r = (none, some ExecError.ctxErr) ∧
    (∀ (m : ReqMap) (rest : List WriteEvent),
      writeloop m (WriteEvent.ctxDone :: rest) = (m, [])) := by
  have hrc : r = RecvOutcome.ctxDone := by
    cases r with
    | ctxDone => rfl
    | received resp => exact absurd hr (by simp [recvSelectCan])
    | closed => exact absurd hr (by simp [recvSelectCan])
    | timeout => exact absurd hr (by simp [recvSelectCan])
  subst hrc
  cases s with
  | ctxDone => exact ⟨by decide, Or.inl rfl, fun _ => rfl, rfl, rfl, fun m rest => rfl⟩
  | sent =>
    exact ⟨by decide, Or.inr ⟨rfl, hs⟩, fun hw => absurd hs (by simp [sendSelectCan, hw]),
      rfl, rfl, fun m rest => rfl⟩
  | timeout => exact absurd hs (by simp [sendSelectCan])

/-- Witness for C8's amended theorem at the racing state: the context is
cancelled, the writer is still parked on the intake channel, the hand-off
happens — and `Exec` still returns the cancellation error at once. -/
theorem exec_after_close_fails_fast_witness :
    sendSelectCan true true SendOutcome.sent ∧
    recvSelectCan true false false RecvOutcome.ctxDone ∧
    (SendOutcome.sent ≠ SendOutcome.timeout ∧
     (SendOutcome.sent = SendOutcome.ctxDone ∨
       (SendOutcome.sent = SendOutcome.sent ∧ true = true)) ∧
     (true = false → SendOutcome.sent = SendOutcome.ctxDone) ∧
     RecvOutcome.ctxDone = RecvOutcome.ctxDone ∧
     execResult SendOutcome.sent RecvOutcome.ctxDone = (none, some ExecError.ctxErr) ∧
     (∀ (m : ReqMap) (rest : List WriteEvent),
       writeloop m (WriteEvent.ctxDone :: rest) = (m, []))) :=
  ⟨rfl, rfl, exec_after_close_fails_fast SendOutcome.sent RecvOutcome.ctxDone true rfl rfl⟩

/-- Computation rule for `decodeRequestLine` on an encoded request object. -/
theorem decodeRequestLine_obj (js : List Json) (q : ℚ) :
    decodeRequestLine (Json.obj [("command", Json.arr js), ("request_id", Json.num q)])
      = match decodeGoValList js, (if q.den = 1 then some q.num else none) with
        | some vs, some rid => some (vs, rid)
        | _, _ => none := rfl

/-- C9: for every representable request — every request `json.Marshal`
accepts — decoding the encoded line recovers the original command arguments
and correlation id (numbers having been carried as wire-format rationals). -/
theorem decode_encode_request_roundtrip (r : Request) (j : Json)
    (h : marshalRequest r = some j) :
    decodeRequestLine j = some (r.Command, r.RequestID) := by
  unfold marshalRequest at h
  cases hl : marshalList r.Command with
  | none => rw [hl] at h; exact Option.noConfusion h
  | some js =>
    rw [hl] at h
    injection h with h
    subst h
    rw [decodeRequestLine_obj, decodeGoValList_marshalList r.Command js hl]
    simp

/-- Witness for C9 at a concrete representable request. -/
theorem decode_encode_request_roundtrip_witness :
    marshalRequest ⟨[GoVal.str "loadfile", GoVal.str "video.mp4", GoVal.bool true,
        GoVal.num 2], 123, 0⟩
      = some (Json.obj [("command", Json.arr [Json.str "loadfile", Json.str "video.mp4",
          Json.bool true, Json.num 2]), ("request_id", Json.num ((123 : Int) : ℚ))]) ∧
    decodeRequestLine (Json.obj [("command", Json.arr [Json.str "loadfile",
        Json.str "video.mp4", Json.bool true, Json.num 2]),
        ("request_id", Json.num ((123 : Int) : ℚ))])
      = some ([GoVal.str "loadfile", GoVal.str "video.mp4", GoVal.bool true,
          GoVal.num 2], 123) :=
  ⟨rfl,
    decode_encode_request_roundtrip
      ⟨[GoVal.str "loadfile", GoVal.str "video.mp4", GoVal.bool true, GoVal.num 2], 123, 0⟩
      (Json.obj [("command", Json.arr [Json.str "loadfile", Json.str "video.mp4",
        Json.bool true, Json.num 2]), ("request_id", Json.num ((123 : Int) : ℚ))]) rfl⟩

/-- C10: `Exec` returns a non-nil `Response` exactly when it returns a nil
error: every branch of the source returns either `(res, nil)` or
`(nil, err)`, the pattern `client.go`'s methods rely on when they treat a
nil `Response` as the sole error case. -/
theorem exec_response_iff_no_error (s : SendOutcome) (r : RecvOutcome) :
    ((execResult s r).1.isSome = true) ↔ (execResult s r).2 = none := by
  cases s <;> cases r <;> simp [execResult]
